import Mathlib

/-!
Shallow embedding of the key-format conversion core of the `kits` repository
(`src/components/converter/converter.tsx`) together with a spec-modelled
text-codec registry (the codec sources are not part of the corpus; only
callers are).

Object identity: JavaScript compares objects with `===` by reference, so
`FormatSpec` objects are modelled as references (`Nat` ids) into a heap
`Nat → PkcsEncodingProps`.  Provider calls (`invoke("rsa_transfer_key", ...)`
and `invoke("ecc_transfer_key", ...)`) are modelled by an explicit call trace;
the external provider is a parameter `ProviderCall → List String`.  A thrown
`Error` is modelled as `Except.error` carrying the message string the source
interpolates.
-/

/-- Mirrors `enum Pkcs { Pkcs1 = "pkcs1", Pkcs8 = "pkcs8", Sec1 = "sec1" }`. -/
inductive Pkcs where
  | pkcs1
  | pkcs8
  | sec1
deriving DecidableEq, Repr

/-- Mirrors `enum KeyFormat { Pem = "pem", Der = "der" }`. -/
inductive KeyFormat where
  | pem
  | der
deriving DecidableEq, Repr

/-- Modelled from the spec: the text-encoding identifiers of the codec
registry (`src/components/codec`), which is not among the provided sources.
The spec lists a Base64-like alphabet and hexadecimal among the registered
encodings; callers in the corpus use a `Base64` formatter. -/
inductive TextEncoding where
  | base64
  | hex
deriving DecidableEq, Repr

/-- Mirrors `enum CurveName` with values "nistp256", "nistp384", "nistp521",
"secp256k1". -/
inductive CurveName where
  | nistp256
  | nistp384
  | nistp521
  | secp256k1
deriving DecidableEq, Repr

/-- Mirrors `class PkcsEncodingProps { pkcs: Pkcs; format: KeyFormat;
encoding?: TextEncoding }`.  The optional `encoding` field starts out
`undefined` (`none`). -/
structure PkcsEncodingProps where
  pkcs : Pkcs
  format : KeyFormat
  encoding : Option TextEncoding
deriving DecidableEq, Repr

/-- `new PkcsEncodingProps(pkcs, keyFormat)`: the constructor leaves
`encoding` undefined. -/
def PkcsEncodingProps.make (p : Pkcs) (f : KeyFormat) : PkcsEncodingProps :=
  ⟨p, f, none⟩

/-- A request dispatched to the external crypto provider via `invoke`. -/
inductive ProviderCall where
  | rsaTransferKey (privateKey publicKey : String)
      (fromSpec toSpec : PkcsEncodingProps)
  | eccTransferKey (curveName : CurveName) (privateKey publicKey : String)
      (fromSpec toSpec : PkcsEncodingProps)
deriving DecidableEq, Repr

/-- The curve name carried by a provider request, when it is an
`ecc_transfer_key` request. -/
def ProviderCall.curveOf : ProviderCall → Option CurveName
  | .rsaTransferKey _ _ _ _ => none
  | .eccTransferKey c _ _ _ _ => some c

deriving instance DecidableEq for Except

/-- The result of one `convert`/`defaultConvert` invocation: either the
returned string array or the thrown `Error` message, together with the list
of provider calls issued during the invocation, in order. -/
structure ConvertOutcome where
  result : Except String (List String)
  calls : List ProviderCall
deriving DecidableEq, Repr

/-- The external crypto provider, opaque to the core: a response for every
request. -/
def Provider : Type := ProviderCall → List String

/-- String value of a `Pkcs` enum member, as interpolated into the thrown
error message. -/
def Pkcs.str : Pkcs → String
  | .pkcs1 => "pkcs1"
  | .pkcs8 => "pkcs8"
  | .sec1 => "sec1"

/-- String interpolation of the optional `encoding` field: JavaScript renders
`undefined` as the text "undefined". -/
def optEncodingStr : Option TextEncoding → String
  | none => "undefined"
  | some TextEncoding.base64 => "base64"
  | some TextEncoding.hex => "hex"

/-- The message of the `Error` thrown by the default branch of both container
converters: `unsupported pkcs: ${from.pkcs} encoding: ${from.encoding}
convert pkcs: ${to.pkcs} encoding: ${to.encoding}`. -/
def unsupportedMessage (fromSpec toSpec : PkcsEncodingProps) : String :=
  "unsupported pkcs: " ++ fromSpec.pkcs.str ++ " encoding: "
    ++ optEncodingStr fromSpec.encoding ++ " convert pkcs: "
    ++ toSpec.pkcs.str ++ " encoding: " ++ optEncodingStr toSpec.encoding

/-- `Converter.defaultConvert`: `if (from === to)` — reference equality on
the two argument objects — resolve with `[privateKey, publicKey]` and no
provider call; otherwise delegate to the subclass `convert` on the referenced
values. -/
def Converter.defaultConvert
    (convertImpl : String → String → PkcsEncodingProps → PkcsEncodingProps → ConvertOutcome)
    (heap : Nat → PkcsEncodingProps)
    (privateKey publicKey : String) (fromRef toRef : Nat) : ConvertOutcome :=
  if fromRef = toRef then
    { result := Except.ok [privateKey, publicKey], calls := [] }
  else
    convertImpl privateKey publicKey (heap fromRef) (heap toRef)

/-- `RsaPkcsConverter.convert`: the `switch (true)` accepts the four cases
pkcs8→pkcs1, pkcs1→pkcs8, pkcs8→pkcs8, pkcs1→pkcs1 and awaits
`invoke("rsa_transfer_key", ...)`; every other pair falls to the `default`
branch, which throws. -/
def RsaPkcsConverter.convert (provider : Provider)
    (privateKey publicKey : String)
    (fromSpec toSpec : PkcsEncodingProps) : ConvertOutcome :=
  if (fromSpec.pkcs = Pkcs.pkcs8 ∧ toSpec.pkcs = Pkcs.pkcs1)
      ∨ (fromSpec.pkcs = Pkcs.pkcs1 ∧ toSpec.pkcs = Pkcs.pkcs8)
      ∨ (fromSpec.pkcs = Pkcs.pkcs8 ∧ toSpec.pkcs = Pkcs.pkcs8)
      ∨ (fromSpec.pkcs = Pkcs.pkcs1 ∧ toSpec.pkcs = Pkcs.pkcs1) then
    let call := ProviderCall.rsaTransferKey privateKey publicKey fromSpec toSpec
    { result := Except.ok (provider call), calls := [call] }
  else
    { result := Except.error (unsupportedMessage fromSpec toSpec), calls := [] }

/-- `class EccPkcsConverter`: carries a public mutable field
`curveName: CurveName = CurveName.NIST_P256`. -/
structure EccPkcsConverter where
  curveName : CurveName
deriving DecidableEq, Repr

/-- `new EccPkcsConverter()`: the field initializer selects NIST_P256. -/
def EccPkcsConverter.make : EccPkcsConverter :=
  { curveName := CurveName.nistp256 }

/-- `setCurveName(curveName) { this.curveName = curveName; }` -/
def EccPkcsConverter.setCurveName (self : EccPkcsConverter) (c : CurveName) :
    EccPkcsConverter :=
  { self with curveName := c }

/-- `EccPkcsConverter.convert`: the `switch (true)` accepts pkcs8→sec1,
sec1→pkcs8, pkcs8→pkcs8, sec1→sec1 and awaits
`invoke("ecc_transfer_key", { curveName: this.curveName, ... })`; every other
pair falls to the `default` branch, which throws. -/
def EccPkcsConverter.convert (self : EccPkcsConverter) (provider : Provider)
    (privateKey publicKey : String)
    (fromSpec toSpec : PkcsEncodingProps) : ConvertOutcome :=
  if (fromSpec.pkcs = Pkcs.pkcs8 ∧ toSpec.pkcs = Pkcs.sec1)
      ∨ (fromSpec.pkcs = Pkcs.sec1 ∧ toSpec.pkcs = Pkcs.pkcs8)
      ∨ (fromSpec.pkcs = Pkcs.pkcs8 ∧ toSpec.pkcs = Pkcs.pkcs8)
      ∨ (fromSpec.pkcs = Pkcs.sec1 ∧ toSpec.pkcs = Pkcs.sec1) then
    let call := ProviderCall.eccTransferKey self.curveName privateKey publicKey
      fromSpec toSpec
    { result := Except.ok (provider call), calls := [call] }
  else
    { result := Except.error (unsupportedMessage fromSpec toSpec), calls := [] }

/-- `RsaEncodingConverter.convert`: unconditionally awaits
`invoke("rsa_transfer_key", ...)` — no validation of any kind. -/
def RsaEncodingConverter.convert (provider : Provider)
    (privateKey publicKey : String)
    (fromSpec toSpec : PkcsEncodingProps) : ConvertOutcome :=
  let call := ProviderCall.rsaTransferKey privateKey publicKey fromSpec toSpec
  { result := Except.ok (provider call), calls := [call] }

/-- `class EccEncodingConverter`: same mutable `curveName` field as
`EccPkcsConverter`, default NIST_P256. -/
structure EccEncodingConverter where
  curveName : CurveName
deriving DecidableEq, Repr

/-- `new EccEncodingConverter()`. -/
def EccEncodingConverter.make : EccEncodingConverter :=
  { curveName := CurveName.nistp256 }

/-- `setCurveName(curveName) { this.curveName = curveName; }` -/
def EccEncodingConverter.setCurveName (self : EccEncodingConverter)
    (c : CurveName) : EccEncodingConverter :=
  { self with curveName := c }

/-- `EccEncodingConverter.convert`: unconditionally awaits
`invoke("ecc_transfer_key", { curveName: this.curveName, ... })`. -/
def EccEncodingConverter.convert (self : EccEncodingConverter)
    (provider : Provider) (privateKey publicKey : String)
    (fromSpec toSpec : PkcsEncodingProps) : ConvertOutcome :=
  let call := ProviderCall.eccTransferKey self.curveName privateKey publicKey
    fromSpec toSpec
  { result := Except.ok (provider call), calls := [call] }

/-- Mirrors `type PkcsFormat = Pkcs8Format | Sec1Format | Pkcs1Format`, the
six string identifiers pkcs1_pem, pkcs1_der, pkcs8_pem, pkcs8_der, sec1_pem,
sec1_der. -/
inductive PkcsFormat where
  | pkcs1_pem
  | pkcs1_der
  | pkcs8_pem
  | pkcs8_der
  | sec1_pem
  | sec1_der
deriving DecidableEq, Repr

/-- The container-kind component named by a `PkcsFormat` identifier (the part
before the underscore in its string value). -/
def PkcsFormat.pkcsOf : PkcsFormat → Pkcs
  | .pkcs1_pem | .pkcs1_der => Pkcs.pkcs1
  | .pkcs8_pem | .pkcs8_der => Pkcs.pkcs8
  | .sec1_pem | .sec1_der => Pkcs.sec1

/-- The serialization component named by a `PkcsFormat` identifier (the part
after the underscore in its string value). -/
def PkcsFormat.serializationOf : PkcsFormat → KeyFormat
  | .pkcs1_pem | .pkcs8_pem | .sec1_pem => KeyFormat.pem
  | .pkcs1_der | .pkcs8_der | .sec1_der => KeyFormat.der

/-- `const PkcsFormats: Record<PkcsFormat, PkcsEncodingProps>`, entry by
entry from the source.  `Record<PkcsFormat, _>` is total over the six
identifiers, which the model renders as a total function. -/
def PkcsFormats : PkcsFormat → PkcsEncodingProps
  | .pkcs8_pem => PkcsEncodingProps.make Pkcs.pkcs8 KeyFormat.pem
  | .pkcs8_der => PkcsEncodingProps.make Pkcs.pkcs8 KeyFormat.der
  | .pkcs1_pem => PkcsEncodingProps.make Pkcs.pkcs1 KeyFormat.pem
  | .pkcs1_der => PkcsEncodingProps.make Pkcs.pkcs1 KeyFormat.der
  | .sec1_pem => PkcsEncodingProps.make Pkcs.sec1 KeyFormat.pem
  | .sec1_der => PkcsEncodingProps.make Pkcs.sec1 KeyFormat.der

/-- Each entry of `PkcsFormats` is one `new PkcsEncodingProps(...)`
allocation, so the table maps each identifier to a fixed, distinct object
reference; `pkcsFormatsRef` records those references in source order. -/
def pkcsFormatsRef : PkcsFormat → Nat
  | .pkcs8_pem => 0
  | .pkcs8_der => 1
  | .pkcs1_pem => 2
  | .pkcs1_der => 3
  | .sec1_pem => 4
  | .sec1_der => 5

/-- `setEncoding(encoding) { this.encoding = encoding; return this; }` —
an in-place mutation of the object behind `ref` that returns the same
reference.  Modelled on the heap: the result is the updated heap together
with the returned reference. -/
def PkcsEncodingProps.setEncoding (heap : Nat → PkcsEncodingProps)
    (ref : Nat) (e : TextEncoding) : (Nat → PkcsEncodingProps) × Nat :=
  (fun r => if r = ref then { heap ref with encoding := some e } else heap r,
   ref)

/-! ### Text codec (spec-modelled)

Modelled from the spec: the text-codec pipeline (`src/components/codec`) is
not among the provided sources — only the converter and display layers that
call it are.  The spec requires a static registry of encodings, each of which
"maps bijectively between a byte sequence and a text representation"; the
registered encodings below are the standard Base64 alphabet (the formatter
the display layer selects by default) and lowercase hexadecimal.  Bytes are
`Fin 256`. -/

/-- The standard Base64 alphabet, index 0 to 63. -/
def b64Alphabet : List Char :=
  "ABCDEFGHIJKLMNOPQRSTUVWXYZabcdefghijklmnopqrstuvwxyz0123456789+/".data

/-- The alphabet character of a sextet value. -/
def encodeB64Char (i : Nat) : Char :=
  b64Alphabet.getD i 'A'

/-- The sextet value of an alphabet character, `none` outside the alphabet. -/
def b64CharVal (c : Char) : Option Nat :=
  if c ∈ b64Alphabet then some (b64Alphabet.indexOf c) else none

/-- Clamp a sextet combination back into a byte. -/
def byteOf (n : Nat) : Fin 256 :=
  ⟨n % 256, Nat.mod_lt n (by omega)⟩

/-- Base64 encoding: three bytes become four alphabet characters; a final
group of one or two bytes is padded with `=`. -/
def encodeB64 : List (Fin 256) → List Char
  | [] => []
  | [a] =>
      [encodeB64Char (a.val / 4), encodeB64Char (a.val % 4 * 16), '=', '=']
  | [a, b] =>
      [encodeB64Char (a.val / 4), encodeB64Char (a.val % 4 * 16 + b.val / 16),
       encodeB64Char (b.val % 16 * 4), '=']
  | a :: b :: c :: rest =>
      encodeB64Char (a.val / 4)
        :: encodeB64Char (a.val % 4 * 16 + b.val / 16)
        :: encodeB64Char (b.val % 16 * 4 + c.val / 64)
        :: encodeB64Char (c.val % 64)
        :: encodeB64 rest

/-- Base64 decoding: consumes four characters at a time; `=` padding is legal
only in the final group; any character outside the alphabet fails. -/
def decodeB64 : List Char → Option (List (Fin 256))
  | [] => some []
  | c1 :: c2 :: c3 :: c4 :: rest =>
      match b64CharVal c1, b64CharVal c2 with
      | some v1, some v2 =>
          if c3 = '=' then
            if c4 = '=' ∧ rest = [] then
              some [byteOf (v1 * 4 + v2 / 16)]
            else none
          else
            match b64CharVal c3 with
            | some v3 =>
                if c4 = '=' then
                  if rest = [] then
                    some [byteOf (v1 * 4 + v2 / 16),
                          byteOf (v2 % 16 * 16 + v3 / 4)]
                  else none
                else
                  match b64CharVal c4 with
                  | some v4 =>
                      (decodeB64 rest).map (fun tail =>
                        byteOf (v1 * 4 + v2 / 16)
                          :: byteOf (v2 % 16 * 16 + v3 / 4)
                          :: byteOf (v3 % 4 * 64 + v4) :: tail)
                  | none => none
            | none => none
      | _, _ => none
  | _ => none

/-- The lowercase hexadecimal digits, index 0 to 15. -/
def hexDigits : List Char :=
  "0123456789abcdef".data

/-- The digit character of a nibble value. -/
def encodeHexDigit (i : Nat) : Char :=
  hexDigits.getD i '0'

/-- The nibble value of a digit character, `none` outside the digit set. -/
def hexVal (c : Char) : Option Nat :=
  if c ∈ hexDigits then some (hexDigits.indexOf c) else none

/-- Hexadecimal encoding: each byte becomes two digits, high nibble first. -/
def encodeHex : List (Fin 256) → List Char
  | [] => []
  | a :: rest =>
      encodeHexDigit (a.val / 16) :: encodeHexDigit (a.val % 16)
        :: encodeHex rest

/-- Hexadecimal decoding: consumes two digits at a time; an odd length or a
character outside the digit set fails. -/
def decodeHex : List Char → Option (List (Fin 256))
  | [] => some []
  | c1 :: c2 :: rest =>
      match hexVal c1, hexVal c2 with
      | some v1, some v2 =>
          (decodeHex rest).map (fun tail => byteOf (v1 * 16 + v2) :: tail)
      | _, _ => none
  | _ => none

/-- The static codec registry, encode side: one implementation per registered
`TextEncoding` identifier. -/
def codecEncode : TextEncoding → List (Fin 256) → List Char
  | .base64 => encodeB64
  | .hex => encodeHex

/-- The static codec registry, decode side. -/
def codecDecode : TextEncoding → List Char → Option (List (Fin 256))
  | .base64 => decodeB64
  | .hex => decodeHex

/-! ## Helper lemmas -/

/-- Decoding the alphabet character of a sextet recovers the sextet. -/
theorem b64Char_roundtrip :
    ∀ i : Fin 64, b64CharVal (encodeB64Char i.val) = some i.val := by
  decide

/-- `Nat`-level form of `b64Char_roundtrip`. -/
theorem b64Char_roundtrip' (v : Nat) (h : v < 64) :
    b64CharVal (encodeB64Char v) = some v :=
  b64Char_roundtrip ⟨v, h⟩

/-- No alphabet character is the padding character. -/
theorem encodeB64Char_ne_pad : ∀ i : Fin 64, encodeB64Char i.val ≠ '=' := by
  decide

/-- `Nat`-level form of `encodeB64Char_ne_pad`. -/
theorem encodeB64Char_ne_pad' (v : Nat) (h : v < 64) :
    encodeB64Char v ≠ '=' :=
  encodeB64Char_ne_pad ⟨v, h⟩

/-- Base64 decoding inverts Base64 encoding on every byte sequence. -/
theorem decodeB64_encodeB64 :
    ∀ l : List (Fin 256), decodeB64 (encodeB64 l) = some l
  | [] => rfl
  | [a] => by
      have ha := a.isLt
      have h1 : a.val / 4 < 64 := by omega
      have h2 : a.val % 4 * 16 < 64 := by omega
      simp [encodeB64, decodeB64, b64Char_roundtrip' _ h1,
        b64Char_roundtrip' _ h2, byteOf, Fin.ext_iff]
      omega
  | [a, b] => by
      have ha := a.isLt
      have hb := b.isLt
      have h1 : a.val / 4 < 64 := by omega
      have h2 : a.val % 4 * 16 + b.val / 16 < 64 := by omega
      have h3 : b.val % 16 * 4 < 64 := by omega
      simp [encodeB64, decodeB64, b64Char_roundtrip' _ h1,
        b64Char_roundtrip' _ h2, b64Char_roundtrip' _ h3,
        if_neg (encodeB64Char_ne_pad' _ h3), byteOf, Fin.ext_iff]
      omega
  | a :: b :: c :: d :: rest => by
      have ha := a.isLt
      have hb := b.isLt
      have hc := c.isLt
      have ih := decodeB64_encodeB64 (d :: rest)
      have h1 : a.val / 4 < 64 := by omega
      have h2 : a.val % 4 * 16 + b.val / 16 < 64 := by omega
      have h3 : b.val % 16 * 4 + c.val / 64 < 64 := by omega
      have h4 : c.val % 64 < 64 := by omega
      simp [encodeB64, decodeB64, b64Char_roundtrip' _ h1,
        b64Char_roundtrip' _ h2, b64Char_roundtrip' _ h3,
        b64Char_roundtrip' _ h4, if_neg (encodeB64Char_ne_pad' _ h3),
        if_neg (encodeB64Char_ne_pad' _ h4), ih, byteOf, Fin.ext_iff]
      omega
  | [a, b, c] => by
      have ha := a.isLt
      have hb := b.isLt
      have hc := c.isLt
      have h1 : a.val / 4 < 64 := by omega
      have h2 : a.val % 4 * 16 + b.val / 16 < 64 := by omega
      have h3 : b.val % 16 * 4 + c.val / 64 < 64 := by omega
      have h4 : c.val % 64 < 64 := by omega
      simp [encodeB64, decodeB64, b64Char_roundtrip' _ h1,
        b64Char_roundtrip' _ h2, b64Char_roundtrip' _ h3,
        b64Char_roundtrip' _ h4, if_neg (encodeB64Char_ne_pad' _ h3),
        if_neg (encodeB64Char_ne_pad' _ h4), byteOf, Fin.ext_iff]
      omega

/-- Decoding the digit character of a nibble recovers the nibble. -/
theorem hexDigit_roundtrip :
    ∀ i : Fin 16, hexVal (encodeHexDigit i.val) = some i.val := by
  decide

/-- `Nat`-level form of `hexDigit_roundtrip`. -/
theorem hexDigit_roundtrip' (v : Nat) (h : v < 16) :
    hexVal (encodeHexDigit v) = some v :=
  hexDigit_roundtrip ⟨v, h⟩

/-- Hexadecimal decoding inverts hexadecimal encoding on every byte
sequence. -/
theorem decodeHex_encodeHex :
    ∀ l : List (Fin 256), decodeHex (encodeHex l) = some l
  | [] => rfl
  | a :: rest => by
      have ha := a.isLt
      have ih := decodeHex_encodeHex rest
      have h1 : a.val / 16 < 16 := by omega
      have h2 : a.val % 16 < 16 := by omega
      simp [encodeHex, decodeHex, hexDigit_roundtrip' _ h1,
        hexDigit_roundtrip' _ h2, ih, byteOf, Fin.ext_iff]
      omega

/-- Every `ecc_transfer_key` request issued by `EccPkcsConverter.convert`
carries the instance's current `curveName` field. -/
theorem eccPkcs_calls_curve (self : EccPkcsConverter) (provider : Provider)
    (p q : String) (fromSpec toSpec : PkcsEncodingProps) :
    ((self.convert provider p q fromSpec toSpec).calls.all
      (fun cl => cl.curveOf == some self.curveName)) = true := by
  unfold EccPkcsConverter.convert
  split <;> simp [ProviderCall.curveOf]

/-- Every `ecc_transfer_key` request issued by `EccEncodingConverter.convert`
carries the instance's current `curveName` field. -/
theorem eccEncoding_calls_curve (self : EccEncodingConverter)
    (provider : Provider) (p q : String)
    (fromSpec toSpec : PkcsEncodingProps) :
    ((self.convert provider p q fromSpec toSpec).calls.all
      (fun cl => cl.curveOf == some self.curveName)) = true := by
  simp [EccEncodingConverter.convert, ProviderCall.curveOf]

/-! ## Claim theorems -/

/-- Claim C1, counterexample: two structurally equal but distinct FormatSpec
objects (heap references 0 and 1 over a constant heap, so the referenced
values are equal) do not trigger the identity shortcut — `defaultConvert`
delegates to the RSA container converter, which issues a provider call and
returns the provider response instead of the unchanged pair. -/
theorem defaultConvert_structural_equality_cex :
    ((fun _ : Nat => PkcsEncodingProps.make Pkcs.pkcs8 KeyFormat.pem) 0
      = (fun _ : Nat => PkcsEncodingProps.make Pkcs.pkcs8 KeyFormat.pem) 1)
    ∧ (Converter.defaultConvert
        (RsaPkcsConverter.convert (fun _ => ["X", "Y"]))
        (fun _ => PkcsEncodingProps.make Pkcs.pkcs8 KeyFormat.pem)
        "PRIV" "PUB" 0 1).calls ≠ []
    ∧ (Converter.defaultConvert
        (RsaPkcsConverter.convert (fun _ => ["X", "Y"]))
        (fun _ => PkcsEncodingProps.make Pkcs.pkcs8 KeyFormat.pem)
        "PRIV" "PUB" 0 1).result ≠ Except.ok ["PRIV", "PUB"] := by
  refine ⟨rfl, by decide, by decide⟩

/-- Claim C1, amended: `defaultConvert` short-circuits exactly on reference
equality of the two FormatSpec arguments (`from === to`), returning the key
pair unchanged with zero provider calls; two distinct references — even to
structurally equal values — are delegated to the subclass `convert`. -/
theorem defaultConvert_reference_identity
    (convertImpl : String → String → PkcsEncodingProps → PkcsEncodingProps → ConvertOutcome)
    (heap : Nat → PkcsEncodingProps) (p q : String) (fromRef toRef : Nat) :
    (fromRef = toRef →
      Converter.defaultConvert convertImpl heap p q fromRef toRef
        = { result := Except.ok [p, q], calls := [] })
    ∧ (fromRef ≠ toRef →
      Converter.defaultConvert convertImpl heap p q fromRef toRef
        = convertImpl p q (heap fromRef) (heap toRef)) := by
  constructor <;> intro h <;> simp [Converter.defaultConvert, h]

/-- Witness for `defaultConvert_reference_identity`: passing the same
reference twice returns the pair unchanged with no provider call; distinct
references delegate. -/
theorem defaultConvert_reference_identity_witness :
    (Converter.defaultConvert
        (RsaPkcsConverter.convert (fun _ => ["X", "Y"]))
        (fun _ => PkcsEncodingProps.make Pkcs.pkcs8 KeyFormat.pem)
        "PRIV" "PUB" 7 7
      = { result := Except.ok ["PRIV", "PUB"], calls := [] })
    ∧ (Converter.defaultConvert
        (RsaPkcsConverter.convert (fun _ => ["X", "Y"]))
        (fun _ => PkcsEncodingProps.make Pkcs.pkcs8 KeyFormat.pem)
        "PRIV" "PUB" 0 1
      = RsaPkcsConverter.convert (fun _ => ["X", "Y"]) "PRIV" "PUB"
          (PkcsEncodingProps.make Pkcs.pkcs8 KeyFormat.pem)
          (PkcsEncodingProps.make Pkcs.pkcs8 KeyFormat.pem)) :=
  ⟨(defaultConvert_reference_identity _ _ "PRIV" "PUB" 7 7).1 rfl,
   (defaultConvert_reference_identity _ _ "PRIV" "PUB" 0 1).2 (by decide)⟩

/-- Claim C2: the RSA container converter accepts exactly the four
(from, to) container pairs drawn from PKCS1/PKCS8, issuing exactly one
`rsa_transfer_key` provider call and returning the provider response
verbatim; any pair involving SEC1 is rejected with the unsupported-transition
error and zero provider calls. -/
theorem rsaPkcs_convert_legality (provider : Provider) (p q : String)
    (fromSpec toSpec : PkcsEncodingProps) :
    (fromSpec.pkcs ≠ Pkcs.sec1 → toSpec.pkcs ≠ Pkcs.sec1 →
      RsaPkcsConverter.convert provider p q fromSpec toSpec
        = { result := Except.ok (provider
              (ProviderCall.rsaTransferKey p q fromSpec toSpec)),
            calls := [ProviderCall.rsaTransferKey p q fromSpec toSpec] })
    ∧ ((fromSpec.pkcs = Pkcs.sec1 ∨ toSpec.pkcs = Pkcs.sec1) →
      RsaPkcsConverter.convert provider p q fromSpec toSpec
        = { result := Except.error (unsupportedMessage fromSpec toSpec),
            calls := [] }) := by
  constructor
  · intro hf ht
    cases hf' : fromSpec.pkcs <;> cases ht' : toSpec.pkcs <;>
      simp_all [RsaPkcsConverter.convert]
  · intro h
    rcases h with h | h <;> simp [RsaPkcsConverter.convert, h]

/-- Witness for `rsaPkcs_convert_legality`: pkcs1→pkcs8 is accepted with one
provider call; sec1→pkcs8 is rejected with none. -/
theorem rsaPkcs_convert_legality_witness :
    (RsaPkcsConverter.convert (fun _ => ["NP", "NQ"]) "p" "q"
        (PkcsEncodingProps.make Pkcs.pkcs1 KeyFormat.pem)
        (PkcsEncodingProps.make Pkcs.pkcs8 KeyFormat.pem)
      = { result := Except.ok ["NP", "NQ"],
          calls := [ProviderCall.rsaTransferKey "p" "q"
            (PkcsEncodingProps.make Pkcs.pkcs1 KeyFormat.pem)
            (PkcsEncodingProps.make Pkcs.pkcs8 KeyFormat.pem)] })
    ∧ (RsaPkcsConverter.convert (fun _ => ["NP", "NQ"]) "p" "q"
        (PkcsEncodingProps.make Pkcs.sec1 KeyFormat.pem)
        (PkcsEncodingProps.make Pkcs.pkcs8 KeyFormat.pem)
      = { result := Except.error (unsupportedMessage
            (PkcsEncodingProps.make Pkcs.sec1 KeyFormat.pem)
            (PkcsEncodingProps.make Pkcs.pkcs8 KeyFormat.pem)),
          calls := [] }) :=
  ⟨(rsaPkcs_convert_legality _ "p" "q" _ _).1 (by decide) (by decide),
   (rsaPkcs_convert_legality _ "p" "q" _ _).2 (Or.inl rfl)⟩

/-- Claim C3: the elliptic-curve container converter accepts exactly the four
(from, to) container pairs drawn from PKCS8/SEC1, issuing exactly one
`ecc_transfer_key` provider call and returning the provider response; any
pair involving PKCS1 is rejected with the unsupported-transition error and
zero provider calls. -/
theorem eccPkcs_convert_legality (self : EccPkcsConverter)
    (provider : Provider) (p q : String)
    (fromSpec toSpec : PkcsEncodingProps) :
    (fromSpec.pkcs ≠ Pkcs.pkcs1 → toSpec.pkcs ≠ Pkcs.pkcs1 →
      EccPkcsConverter.convert self provider p q fromSpec toSpec
        = { result := Except.ok (provider
              (ProviderCall.eccTransferKey self.curveName p q fromSpec toSpec)),
            calls := [ProviderCall.eccTransferKey self.curveName p q
              fromSpec toSpec] })
    ∧ ((fromSpec.pkcs = Pkcs.pkcs1 ∨ toSpec.pkcs = Pkcs.pkcs1) →
      EccPkcsConverter.convert self provider p q fromSpec toSpec
        = { result := Except.error (unsupportedMessage fromSpec toSpec),
            calls := [] }) := by
  constructor
  · intro hf ht
    cases hf' : fromSpec.pkcs <;> cases ht' : toSpec.pkcs <;>
      simp_all [EccPkcsConverter.convert]
  · intro h
    rcases h with h | h <;> simp [EccPkcsConverter.convert, h]

/-- Witness for `eccPkcs_convert_legality`: pkcs8→sec1 is accepted with one
provider call carrying the default curve; pkcs1→pkcs8 is rejected with
none. -/
theorem eccPkcs_convert_legality_witness :
    (EccPkcsConverter.convert EccPkcsConverter.make (fun _ => ["NP", "NQ"])
        "p" "q"
        (PkcsEncodingProps.make Pkcs.pkcs8 KeyFormat.pem)
        (PkcsEncodingProps.make Pkcs.sec1 KeyFormat.pem)
      = { result := Except.ok ["NP", "NQ"],
          calls := [ProviderCall.eccTransferKey CurveName.nistp256 "p" "q"
            (PkcsEncodingProps.make Pkcs.pkcs8 KeyFormat.pem)
            (PkcsEncodingProps.make Pkcs.sec1 KeyFormat.pem)] })
    ∧ (EccPkcsConverter.convert EccPkcsConverter.make (fun _ => ["NP", "NQ"])
        "p" "q"
        (PkcsEncodingProps.make Pkcs.pkcs1 KeyFormat.pem)
        (PkcsEncodingProps.make Pkcs.pkcs8 KeyFormat.pem)
      = { result := Except.error (unsupportedMessage
            (PkcsEncodingProps.make Pkcs.pkcs1 KeyFormat.pem)
            (PkcsEncodingProps.make Pkcs.pkcs8 KeyFormat.pem)),
          calls := [] }) :=
  ⟨(eccPkcs_convert_legality EccPkcsConverter.make _ "p" "q" _ _).1
      (by decide) (by decide),
   (eccPkcs_convert_legality EccPkcsConverter.make _ "p" "q" _ _).2
      (Or.inl rfl)⟩

/-- Claim C4, counterexample: a serialization-only conversion in the SEC1
container (sec1/pem → sec1/der) is rejected by the RSA container converter
with zero provider calls — the container `switch` runs on every request, so
serialization-only conversions are not universally legal across both
families and all three container kinds. -/
theorem serializationOnly_cex :
    (RsaPkcsConverter.convert (fun _ => ["X", "Y"]) "p" "q"
        (PkcsEncodingProps.make Pkcs.sec1 KeyFormat.pem)
        (PkcsEncodingProps.make Pkcs.sec1 KeyFormat.der)).calls = []
    ∧ (RsaPkcsConverter.convert (fun _ => ["X", "Y"]) "p" "q"
        (PkcsEncodingProps.make Pkcs.sec1 KeyFormat.pem)
        (PkcsEncodingProps.make Pkcs.sec1 KeyFormat.der)).result
      = Except.error (unsupportedMessage
          (PkcsEncodingProps.make Pkcs.sec1 KeyFormat.pem)
          (PkcsEncodingProps.make Pkcs.sec1 KeyFormat.der)) :=
  ⟨rfl, rfl⟩

/-- Claim C4, amended: a serialization-only conversion (same container kind
on both sides) is accepted by a family's container converter, with exactly
one provider call, precisely when the container kind is one the family
supports: PKCS1 and PKCS8 for RSA, PKCS8 and SEC1 for EC.  The remaining
kind (SEC1 for RSA, PKCS1 for EC) is rejected with zero provider calls even
when only the serialization differs. -/
theorem serializationOnly_legality (provider : Provider)
    (self : EccPkcsConverter) (p q : String)
    (fromSpec toSpec : PkcsEncodingProps)
    (hsame : fromSpec.pkcs = toSpec.pkcs) :
    (fromSpec.pkcs ≠ Pkcs.sec1 →
      (RsaPkcsConverter.convert provider p q fromSpec toSpec).calls
        = [ProviderCall.rsaTransferKey p q fromSpec toSpec])
    ∧ (fromSpec.pkcs = Pkcs.sec1 →
      RsaPkcsConverter.convert provider p q fromSpec toSpec
        = { result := Except.error (unsupportedMessage fromSpec toSpec),
            calls := [] })
    ∧ (fromSpec.pkcs ≠ Pkcs.pkcs1 →
      (EccPkcsConverter.convert self provider p q fromSpec toSpec).calls
        = [ProviderCall.eccTransferKey self.curveName p q fromSpec toSpec])
    ∧ (fromSpec.pkcs = Pkcs.pkcs1 →
      EccPkcsConverter.convert self provider p q fromSpec toSpec
        = { result := Except.error (unsupportedMessage fromSpec toSpec),
            calls := [] }) := by
  obtain ⟨fp, ff, fe⟩ := fromSpec
  obtain ⟨tp, tf, te⟩ := toSpec
  have h2 : fp = tp := hsame
  subst h2
  refine ⟨?_, ?_, ?_, ?_⟩ <;> intro h <;> cases fp <;>
    simp_all [RsaPkcsConverter.convert, EccPkcsConverter.convert]

/-- Witness for `serializationOnly_legality`: pkcs8/pem → pkcs8/der reaches
the provider through both container converters; sec1/pem → sec1/der is
rejected by the RSA one and pkcs1/pem → pkcs1/der by the EC one. -/
theorem serializationOnly_legality_witness :
    ((RsaPkcsConverter.convert (fun _ => ["X", "Y"]) "p" "q"
        (PkcsEncodingProps.make Pkcs.pkcs8 KeyFormat.pem)
        (PkcsEncodingProps.make Pkcs.pkcs8 KeyFormat.der)).calls
      = [ProviderCall.rsaTransferKey "p" "q"
          (PkcsEncodingProps.make Pkcs.pkcs8 KeyFormat.pem)
          (PkcsEncodingProps.make Pkcs.pkcs8 KeyFormat.der)])
    ∧ (RsaPkcsConverter.convert (fun _ => ["X", "Y"]) "p" "q"
        (PkcsEncodingProps.make Pkcs.sec1 KeyFormat.pem)
        (PkcsEncodingProps.make Pkcs.sec1 KeyFormat.der)
      = { result := Except.error (unsupportedMessage
            (PkcsEncodingProps.make Pkcs.sec1 KeyFormat.pem)
            (PkcsEncodingProps.make Pkcs.sec1 KeyFormat.der)),
          calls := [] })
    ∧ ((EccPkcsConverter.convert EccPkcsConverter.make (fun _ => ["X", "Y"])
        "p" "q"
        (PkcsEncodingProps.make Pkcs.pkcs8 KeyFormat.pem)
        (PkcsEncodingProps.make Pkcs.pkcs8 KeyFormat.der)).calls
      = [ProviderCall.eccTransferKey CurveName.nistp256 "p" "q"
          (PkcsEncodingProps.make Pkcs.pkcs8 KeyFormat.pem)
          (PkcsEncodingProps.make Pkcs.pkcs8 KeyFormat.der)])
    ∧ (EccPkcsConverter.convert EccPkcsConverter.make (fun _ => ["X", "Y"])
        "p" "q"
        (PkcsEncodingProps.make Pkcs.pkcs1 KeyFormat.pem)
        (PkcsEncodingProps.make Pkcs.pkcs1 KeyFormat.der)
      = { result := Except.error (unsupportedMessage
            (PkcsEncodingProps.make Pkcs.pkcs1 KeyFormat.pem)
            (PkcsEncodingProps.make Pkcs.pkcs1 KeyFormat.der)),
          calls := [] }) :=
  ⟨(serializationOnly_legality (fun _ => ["X", "Y"]) EccPkcsConverter.make
      "p" "q" (PkcsEncodingProps.make Pkcs.pkcs8 KeyFormat.pem)
      (PkcsEncodingProps.make Pkcs.pkcs8 KeyFormat.der) rfl).1 (by decide),
   (serializationOnly_legality (fun _ => ["X", "Y"]) EccPkcsConverter.make
      "p" "q" (PkcsEncodingProps.make Pkcs.sec1 KeyFormat.pem)
      (PkcsEncodingProps.make Pkcs.sec1 KeyFormat.der) rfl).2.1 rfl,
   (serializationOnly_legality (fun _ => ["X", "Y"]) EccPkcsConverter.make
      "p" "q" (PkcsEncodingProps.make Pkcs.pkcs8 KeyFormat.pem)
      (PkcsEncodingProps.make Pkcs.pkcs8 KeyFormat.der) rfl).2.2.1
      (by decide),
   (serializationOnly_legality (fun _ => ["X", "Y"]) EccPkcsConverter.make
      "p" "q" (PkcsEncodingProps.make Pkcs.pkcs1 KeyFormat.pem)
      (PkcsEncodingProps.make Pkcs.pkcs1 KeyFormat.der) rfl).2.2.2 rfl⟩

/-- Claim C5: the RSA and EC encoding converters perform no container
validation — for any two distinct FormatSpecs, `convert` never raises the
unsupported-transition error and issues exactly one provider call, returning
the provider response. -/
theorem encodingConverters_no_validation (provider : Provider)
    (self : EccEncodingConverter) (p q : String)
    (fromSpec toSpec : PkcsEncodingProps) (_h : fromSpec ≠ toSpec) :
    RsaEncodingConverter.convert provider p q fromSpec toSpec
      = { result := Except.ok (provider
            (ProviderCall.rsaTransferKey p q fromSpec toSpec)),
          calls := [ProviderCall.rsaTransferKey p q fromSpec toSpec] }
    ∧ EccEncodingConverter.convert self provider p q fromSpec toSpec
      = { result := Except.ok (provider (ProviderCall.eccTransferKey
            self.curveName p q fromSpec toSpec)),
          calls := [ProviderCall.eccTransferKey self.curveName p q
            fromSpec toSpec] } :=
  ⟨rfl, rfl⟩

/-- Witness for `encodingConverters_no_validation`, at a container transition
the container converters would reject (sec1 → pkcs1, illegal for both
families): the encoding converters still delegate with one provider call. -/
theorem encodingConverters_no_validation_witness :
    RsaEncodingConverter.convert (fun _ => ["X", "Y"]) "p" "q"
        (PkcsEncodingProps.make Pkcs.sec1 KeyFormat.pem)
        (PkcsEncodingProps.make Pkcs.pkcs1 KeyFormat.der)
      = { result := Except.ok ["X", "Y"],
          calls := [ProviderCall.rsaTransferKey "p" "q"
            (PkcsEncodingProps.make Pkcs.sec1 KeyFormat.pem)
            (PkcsEncodingProps.make Pkcs.pkcs1 KeyFormat.der)] }
    ∧ EccEncodingConverter.convert EccEncodingConverter.make
        (fun _ => ["X", "Y"]) "p" "q"
        (PkcsEncodingProps.make Pkcs.sec1 KeyFormat.pem)
        (PkcsEncodingProps.make Pkcs.pkcs1 KeyFormat.der)
      = { result := Except.ok ["X", "Y"],
          calls := [ProviderCall.eccTransferKey CurveName.nistp256 "p" "q"
            (PkcsEncodingProps.make Pkcs.sec1 KeyFormat.pem)
            (PkcsEncodingProps.make Pkcs.pkcs1 KeyFormat.der)] } :=
  encodingConverters_no_validation (fun _ => ["X", "Y"])
    EccEncodingConverter.make "p" "q"
    (PkcsEncodingProps.make Pkcs.sec1 KeyFormat.pem)
    (PkcsEncodingProps.make Pkcs.pkcs1 KeyFormat.der) (by decide)

/-- Claim C6, counterexample: the rejection failure does not carry the full
`to` format nor the key family.  Rejecting sec1→pkcs8/pem and sec1→pkcs8/der
produces identical error values although the two `to` formats differ in
serialization, and the RSA and EC container converters produce identical
error values for the common illegal pair sec1→pkcs1, so the failure
determines neither the serialization of the formats nor the offending
family. -/
theorem unsupported_error_payload_cex :
    ((RsaPkcsConverter.convert (fun _ => []) "p" "q"
        (PkcsEncodingProps.make Pkcs.sec1 KeyFormat.pem)
        (PkcsEncodingProps.make Pkcs.pkcs8 KeyFormat.pem)).result
      = (RsaPkcsConverter.convert (fun _ => []) "p" "q"
        (PkcsEncodingProps.make Pkcs.sec1 KeyFormat.pem)
        (PkcsEncodingProps.make Pkcs.pkcs8 KeyFormat.der)).result)
    ∧ PkcsEncodingProps.make Pkcs.pkcs8 KeyFormat.pem
        ≠ PkcsEncodingProps.make Pkcs.pkcs8 KeyFormat.der
    ∧ ((RsaPkcsConverter.convert (fun _ => []) "p" "q"
        (PkcsEncodingProps.make Pkcs.sec1 KeyFormat.pem)
        (PkcsEncodingProps.make Pkcs.pkcs1 KeyFormat.pem)).result
      = (EccPkcsConverter.convert EccPkcsConverter.make (fun _ => []) "p" "q"
        (PkcsEncodingProps.make Pkcs.sec1 KeyFormat.pem)
        (PkcsEncodingProps.make Pkcs.pkcs1 KeyFormat.pem)).result) :=
  ⟨rfl, by decide, rfl⟩

/-- Claim C6, amended: whenever a container converter rejects a transition,
the failure is raised synchronously with zero provider calls, and its message
carries the container kind (`pkcs`) and optional text encoding of the `from`
and `to` formats — but neither the key family nor the serialization. -/
theorem unsupported_error_sync (provider : Provider)
    (self : EccPkcsConverter) (p q : String)
    (fromSpec toSpec : PkcsEncodingProps) :
    ((fromSpec.pkcs = Pkcs.sec1 ∨ toSpec.pkcs = Pkcs.sec1) →
      RsaPkcsConverter.convert provider p q fromSpec toSpec
        = { result := Except.error ("unsupported pkcs: " ++ fromSpec.pkcs.str
              ++ " encoding: " ++ optEncodingStr fromSpec.encoding
              ++ " convert pkcs: " ++ toSpec.pkcs.str ++ " encoding: "
              ++ optEncodingStr toSpec.encoding),
            calls := [] })
    ∧ ((fromSpec.pkcs = Pkcs.pkcs1 ∨ toSpec.pkcs = Pkcs.pkcs1) →
      EccPkcsConverter.convert self provider p q fromSpec toSpec
        = { result := Except.error ("unsupported pkcs: " ++ fromSpec.pkcs.str
              ++ " encoding: " ++ optEncodingStr fromSpec.encoding
              ++ " convert pkcs: " ++ toSpec.pkcs.str ++ " encoding: "
              ++ optEncodingStr toSpec.encoding),
            calls := [] }) := by
  constructor <;> intro h <;> rcases h with h | h <;>
    simp [RsaPkcsConverter.convert, EccPkcsConverter.convert,
      unsupportedMessage, h]

/-- Witness for `unsupported_error_sync`: the rejected RSA transition
sec1→pkcs8 and the rejected EC transition pkcs1→pkcs8 both yield the
interpolated message with zero provider calls. -/
theorem unsupported_error_sync_witness :
    (RsaPkcsConverter.convert (fun _ => []) "p" "q"
        (PkcsEncodingProps.make Pkcs.sec1 KeyFormat.pem)
        (PkcsEncodingProps.make Pkcs.pkcs8 KeyFormat.der)
      = { result := Except.error
            "unsupported pkcs: sec1 encoding: undefined convert pkcs: pkcs8 encoding: undefined",
          calls := [] })
    ∧ (EccPkcsConverter.convert EccPkcsConverter.make (fun _ => []) "p" "q"
        (PkcsEncodingProps.make Pkcs.pkcs1 KeyFormat.pem)
        (PkcsEncodingProps.make Pkcs.pkcs8 KeyFormat.der)
      = { result := Except.error
            "unsupported pkcs: pkcs1 encoding: undefined convert pkcs: pkcs8 encoding: undefined",
          calls := [] }) :=
  ⟨(unsupported_error_sync (fun _ => []) EccPkcsConverter.make "p" "q"
      (PkcsEncodingProps.make Pkcs.sec1 KeyFormat.pem)
      (PkcsEncodingProps.make Pkcs.pkcs8 KeyFormat.der)).1 (Or.inl rfl),
   (unsupported_error_sync (fun _ => []) EccPkcsConverter.make "p" "q"
      (PkcsEncodingProps.make Pkcs.pkcs1 KeyFormat.pem)
      (PkcsEncodingProps.make Pkcs.pkcs8 KeyFormat.der)).2 (Or.inl rfl)⟩

/-- Claim C7: for every byte sequence and every encoding registered in the
text-codec registry, decoding the encoding of the bytes yields exactly the
original bytes.  (The codec implementation is modelled from the spec; its
source is not part of the corpus.) -/
theorem codec_roundtrip (e : TextEncoding) (b : List (Fin 256)) :
    codecDecode e (codecEncode e b) = some b := by
  cases e
  · exact decodeB64_encodeB64 b
  · exact decodeHex_encodeHex b

/-- Claim C8: the static `PkcsFormats` table is total over the six
`PkcsFormat` identifiers (it is a total function of the identifier type) and
consistent: every entry's container kind and serialization match the two
components named by its identifier. -/
theorem pkcsFormats_total_consistent (f : PkcsFormat) :
    (PkcsFormats f).pkcs = f.pkcsOf
      ∧ (PkcsFormats f).format = f.serializationOf := by
  cases f <;> exact ⟨rfl, rfl⟩

/-- Claim C9: the elliptic-curve converters keep the curve as instance state
with the silent default NIST_P256 — a freshly constructed converter stamps
every `ecc_transfer_key` request with "nistp256", and after `setCurveName c`
every request from that instance carries `c`, regardless of the from/to
formats. -/
theorem ecc_curveName_state (self1 : EccPkcsConverter)
    (self2 : EccEncodingConverter) (c : CurveName) (provider : Provider)
    (p q : String) (fromSpec toSpec : PkcsEncodingProps) :
    ((EccPkcsConverter.make.convert provider p q fromSpec toSpec).calls.all
      (fun cl => cl.curveOf == some CurveName.nistp256) = true)
    ∧ ((EccEncodingConverter.make.convert provider p q fromSpec
        toSpec).calls.all
      (fun cl => cl.curveOf == some CurveName.nistp256) = true)
    ∧ (((self1.setCurveName c).convert provider p q fromSpec toSpec).calls.all
      (fun cl => cl.curveOf == some c) = true)
    ∧ (((self2.setCurveName c).convert provider p q fromSpec toSpec).calls.all
      (fun cl => cl.curveOf == some c) = true) :=
  ⟨eccPkcs_calls_curve EccPkcsConverter.make provider p q fromSpec toSpec,
   eccEncoding_calls_curve EccEncodingConverter.make provider p q fromSpec
     toSpec,
   eccPkcs_calls_curve (self1.setCurveName c) provider p q fromSpec toSpec,
   eccEncoding_calls_curve (self2.setCurveName c) provider p q fromSpec
     toSpec⟩

/-- Claim C10: `setEncoding` mutates its receiver in place — it changes only
the `encoding` field of the referenced object, leaves `pkcs` and `format`
untouched, leaves every other object untouched, and returns the very same
reference; consequently, setting an encoding through a `PkcsFormats` table
entry is visible to every later reader of that entry. -/
theorem setEncoding_in_place (heap : Nat → PkcsEncodingProps) (ref r : Nat)
    (e : TextEncoding) (k : PkcsFormat) :
    ((PkcsEncodingProps.setEncoding heap ref e).2 = ref)
    ∧ (((PkcsEncodingProps.setEncoding heap ref e).1 ref).pkcs
        = (heap ref).pkcs)
    ∧ (((PkcsEncodingProps.setEncoding heap ref e).1 ref).format
        = (heap ref).format)
    ∧ (((PkcsEncodingProps.setEncoding heap ref e).1 ref).encoding = some e)
    ∧ (r = ref ∨ (PkcsEncodingProps.setEncoding heap ref e).1 r = heap r)
    ∧ (((PkcsEncodingProps.setEncoding heap (pkcsFormatsRef k) e).1
        (pkcsFormatsRef k)).encoding = some e) := by
  refine ⟨rfl, by simp [PkcsEncodingProps.setEncoding], ?_, ?_, ?_, ?_⟩
  · simp [PkcsEncodingProps.setEncoding]
  · simp [PkcsEncodingProps.setEncoding]
  · by_cases hr : r = ref
    · exact Or.inl hr
    · exact Or.inr (by simp [PkcsEncodingProps.setEncoding, hr])
  · simp [PkcsEncodingProps.setEncoding]
